import Mathlib

/-!
Verification development for the retiro-pulse-2026 registration/payment
backend.  The definitions below are a shallow embedding of the installment
planner and payment reconciler found in `src/backend/server.js` and in the
earlier server iterations kept in `src/unnamed/part_000` .. `part_002`.

Modelling conventions:
* JavaScript strings are modelled as `List Char` (`Str`); the payment
  gateway's `localeCompare` comparator on the all-ASCII date strings used
  here coincides with code-point order, modelled by `lexLt`.
* Calendar dates handled by `new Date(...)` appear in two faithful forms:
  - as integer day numbers (`civil`, days since 1970-01-01) for the
    part_000 planner `gerarVencimentosAteDeadline`, which only does
    day-granular arithmetic on them, and
  - as `CDate` triples ordered chronologically (`dateLtB`) for the
    server.js boleto route, which only compares parsed dates; a JS
    "Invalid Date" (a well-shaped string that is not a real calendar day,
    for which every `<`/`>` comparison is false) is the `none` case of
    `parseIsoDate`.
* The SQL store is a pair of lists (`Store`); SQL `UPDATE ... WHERE`
  statements become `List.map` with the row filter, `IN (SELECT ...)`
  becomes `List.any`.
* Remote calls are oracles passed in as arguments: the gateway payment
  creation is `Nat → Except Str PayResult` (per installment index), the
  customer lookup an `Except Str Unit`.
-/

set_option maxHeartbeats 1000000

abbrev Str := List Char

/-- ASCII upper-casing of one character (model of JS `toUpperCase` /
SQL `ILIKE` case folding on the ASCII status strings used by the code). -/
def upChar (c : Char) : Char :=
  if 97 ≤ c.toNat ∧ c.toNat ≤ 122 then Char.ofNat (c.toNat - 32) else c

/-- ASCII upper-casing of a string. -/
def upStr (s : Str) : Str := s.map upChar

/-- A row of the `inscritos` table (the fields the modelled routes touch). -/
structure Inscrito where
  id : Nat
  status : Str
deriving DecidableEq

/-- A row of the `parcelas` table. -/
structure Parcela where
  inscritoId : Nat
  parcela : Nat
  valorCents : Int
  vencimento : Str
  status : Str
  boletoUrl : Option Str
  asaasPaymentId : Str
deriving DecidableEq

/-- The shared store: the two tables the planner/reconciler read and write. -/
structure Store where
  inscritos : List Inscrito
  parcelas : List Parcela
deriving DecidableEq

/-! ### Installment planner, part_000 (`dividirValor`, `gerarVencimentosAteDeadline`) -/

/-- `dividirValor(totalCents, n)` from part_000: `n` shares of
`Math.floor(totalCents / n)` cents, with the division remainder added to
the last share (`arr[n - 1] += resto`). -/
def dividirValor (totalCents n : Nat) : List Nat :=
  let base := totalCents / n
  let arr := List.replicate n base
  let soma := base * n
  let resto := totalCents - soma
  arr.set (n - 1) (base + resto)

/-- `gerarVencimentosAteDeadline(n, deadlineISO)` from part_000, with the
ambient clock (`new Date()`) made explicit as the `hoje` parameter.  Dates
are integer day numbers; `toISO` is a monotone bijection from day numbers
to the `YYYY-MM-DD` strings the route emits, so list order is preserved by
this representation.  `Math.max(0, Math.floor((deadline - minPrimeira) /
dayMs))` is `(deadline - minPrimeira).toNat` for day-granular dates. -/
def gerarVencimentosAteDeadline (n : Nat) (hoje deadline : Int) : List Int :=
  let minPrimeira := hoje + 3
  if n ≤ 1 then
    [if deadline < minPrimeira then minPrimeira else deadline]
  else
    let totalDias : Nat := (deadline - minPrimeira).toNat
    if totalDias = 0 then
      (List.range (n - 1)).map (fun (i : Nat) => minPrimeira + (i : Int)) ++ [deadline]
    else
      let step : Nat := totalDias / (n - 1)
      (List.range (n - 1)).map (fun (i : Nat) => minPrimeira + ((i * step : Nat) : Int)) ++
        [deadline]

/-- Day number of a Gregorian calendar date (days since 1970-01-01),
the standard civil-from-days inverse used to write concrete dates in
theorems about `gerarVencimentosAteDeadline`. -/
def civil (y m d : Nat) : Int :=
  let y2 := if m ≤ 2 then y - 1 else y
  let era := y2 / 400
  let yoe := y2 % 400
  let mp := if m > 2 then m - 3 else m + 9
  let doy := (153 * mp + 2) / 5 + (d - 1)
  let doe := yoe * 365 + yoe / 4 - yoe / 100 + doy
  ((era * 146097 + doe : Nat) : Int) - 719468

/-! ### Calendar dates and ISO strings (server.js boleto route) -/

/-- A parsed calendar date. -/
structure CDate where
  y : Nat
  m : Nat
  d : Nat
deriving DecidableEq

/-- Chronological (lexicographic year/month/day) order on calendar dates:
the order `new Date(a) < new Date(b)` gives on two valid dates parsed in
the same timezone. -/
def dateLtB (a b : CDate) : Bool :=
  decide (a.y < b.y) ||
    (decide (a.y = b.y) &&
      (decide (a.m < b.m) || (decide (a.m = b.m) && decide (a.d < b.d))))

/-- `c` is an ASCII digit (the `\d` of the route's date regex). -/
def isDigitB (c : Char) : Bool := decide (48 ≤ c.toNat ∧ c.toNat ≤ 57)

/-- Numeric value of an ASCII digit character. -/
def dval (c : Char) : Nat := c.toNat - 48

/-- Leap-year rule of the Gregorian calendar (as implemented by JS `Date`). -/
def isLeap (y : Nat) : Bool := (y % 4 = 0 && y % 100 ≠ 0) || y % 400 = 0

/-- Number of days of month `m` of year `y`. -/
def daysInMonth (y m : Nat) : Nat :=
  if m = 2 then (if isLeap y then 29 else 28)
  else if m = 4 ∨ m = 6 ∨ m = 9 ∨ m = 11 then 30
  else 31

/-- The shape test `/^\d{4}-\d{2}-\d{2}$/.test(iso)` of the route. -/
def isoShape (s : Str) : Bool :=
  match s with
  | [y1, y2, y3, y4, h1, m1, m2, h2, d1, d2] =>
    isDigitB y1 && isDigitB y2 && isDigitB y3 && isDigitB y4 && (h1 == '-') &&
      isDigitB m1 && isDigitB m2 && (h2 == '-') && isDigitB d1 && isDigitB d2
  | _ => false

/-- Year field of a well-shaped ISO string. -/
def decodeY (y1 y2 y3 y4 : Char) : Nat :=
  1000 * dval y1 + 100 * dval y2 + 10 * dval y3 + dval y4

/-- Two-digit field of a well-shaped ISO string. -/
def decode2 (c1 c2 : Char) : Nat := 10 * dval c1 + dval c2

/-- `new Date(iso + 'T00:00:00')` on a string: `some` ⟺ the engine yields
a valid `Date` (a well-shaped string naming a real Gregorian calendar day);
`none` is JS "Invalid Date", whose `<`/`>` comparisons are all false. -/
def parseIsoDate : Str → Option CDate
  | [y1, y2, y3, y4, h1, m1, m2, h2, d1, d2] =>
    if (isDigitB y1 && isDigitB y2 && isDigitB y3 && isDigitB y4 && (h1 == '-') &&
        isDigitB m1 && isDigitB m2 && (h2 == '-') && isDigitB d1 && isDigitB d2) = true then
      if 1 ≤ decode2 m1 m2 ∧ decode2 m1 m2 ≤ 12 ∧ 1 ≤ decode2 d1 d2 ∧
          decode2 d1 d2 ≤ daysInMonth (decodeY y1 y2 y3 y4) (decode2 m1 m2) then
        some ⟨decodeY y1 y2 y3 y4, decode2 m1 m2, decode2 d1 d2⟩
      else none
    else none
  | _ => none

/-- Code-point lexicographic order on strings: the order
`(a, b) => a.localeCompare(b)` induces on the ASCII date strings sorted by
the route. -/
def lexLt : Str → Str → Bool
  | _, [] => false
  | [], _ :: _ => true
  | a :: s, b :: t =>
    if a.toNat < b.toNat then true
    else if b.toNat < a.toNat then false
    else lexLt s t

/-- Non-strict companion of `lexLt`. -/
def lexLe (a b : Str) : Bool := !lexLt b a

/-- Stable insertion of one string into a `lexLe`-sorted list. -/
def insertLex (x : Str) : List Str → List Str
  | [] => [x]
  | y :: t => if lexLt x y then x :: y :: t else y :: insertLex x t

/-- Stable sort by `localeCompare`: extensionally equal to the result of
`vencimentos.sort((a, b) => a.localeCompare(b))` (a stable comparison sort
under a total order is unique). -/
def sortLex : List Str → List Str
  | [] => []
  | x :: t => insertLex x (sortLex t)

/-- The adjacent-duplicate scan
`for (j = 1; ...) if (vencimentos[j] === vencimentos[j-1])` of the route. -/
def hasAdjDup : List Str → Bool
  | a :: b :: t => (a == b) || hasAdjDup (b :: t)
  | _ => false

/-- The fixed campaign deadline `LIMITE = new Date(2026, 3, 1)` rendered as
the route renders it (`toISOString().slice(0, 10)` in the deployment's
UTC-negative timezone). -/
def deadlineStr : Str := "2026-04-01".toList

/-- The fixed campaign deadline as a calendar date. -/
def deadlineDate : CDate := ⟨2026, 4, 1⟩

/-- Validation errors of the server.js boleto route (`etapa: 'datas'`),
carrying the 1-based installment index the route names. -/
inductive VErr where
  | invalida (idx : Nat)
  | cedo (idx : Nat)
  | tarde (idx : Nat)
  | dup
deriving DecidableEq

/-- One iteration of the server.js date-validation loop at position `idx`:
slice to 10 chars, regex test, then the `d < MIN` / `d > LIMITE` bound
checks on the parsed `Date` (both false for an Invalid Date). -/
def checkDataAt (escolhidas : List Str) (minDate : CDate) (idx : Nat) : Except VErr Str :=
  let iso := (escolhidas.getD idx []).take 10
  if isoShape iso = false then .error (.invalida (idx + 1))
  else
    match parseIsoDate iso with
    | none => .ok iso
    | some t =>
      if dateLtB t minDate then .error (.cedo (idx + 1))
      else if dateLtB deadlineDate t then .error (.tarde (idx + 1))
      else .ok iso

/-- Sequential short-circuiting loop (the JS `for` with early `return`s). -/
def mapExcept (f : Nat → Except VErr Str) : List Nat → Except VErr (List Str)
  | [] => .ok []
  | x :: t =>
    match f x with
    | .error e => .error e
    | .ok y =>
      match mapExcept f t with
      | .error e => .error e
      | .ok ys => .ok (y :: ys)

/-- The date-schedule part of `POST /pagamentos/asaas/boletos/:id`
(server.js lines 546-570): validate the `parcelas - 1` client dates,
append the fixed deadline, sort, and reject adjacent duplicates.
`Math.max(0, parcelas - 1)` is `(parcelas - 1).toNat`. -/
def validarDatas (parcelas : Int) (escolhidas : List Str) (minDate : CDate) :
    Except VErr (List Str) :=
  let anteriores := (parcelas - 1).toNat
  match mapExcept (checkDataAt escolhidas minDate) (List.range anteriores) with
  | .error e => .error e
  | .ok vs =>
    let all := sortLex (vs ++ [deadlineStr])
    if hasAdjDup all then .error .dup else .ok all

/-! ### The server.js boleto route (fan-out to the gateway) -/

/-- What a successful `asaas('/payments', ...)` call returns (the fields the
routes read). -/
structure PayResult where
  payId : Str
  bankSlipUrl : Option Str
  payStatus : Option Str
deriving DecidableEq

/-- One entry of the `lista` the route returns on success. -/
structure Item where
  parcela : Nat
  boletoUrl : Option Str
  vencimento : Str
deriving DecidableEq

/-- The responses of `POST /pagamentos/asaas/boletos/:id` (server.js):
404, 502 at the customer step, 400 at the date step, 502 naming the
failing installment index mid fan-out, or 200 with the `lista`. -/
inductive Resp where
  | notFound
  | customerErr (e : Str)
  | datasErr (e : VErr)
  | chargeErr (parcela : Nat) (e : Str)
  | okResp (lista : List Item)
deriving DecidableEq

/-- The per-installment results a response body carries: only the success
body has a `parcelas` list; every error body carries none. -/
def respResults : Resp → List Item
  | .okResp l => l
  | _ => []

/-- `Number(req.body.parcelas || 3)` on an integer-or-absent body field
(absent and the falsy `0` fall back to `3`). -/
def numOr3 : Option Int → Int
  | none => 3
  | some v => if v = 0 then 3 else v

/-- Cents stored for one installment by server.js:
`toCents(Number((320 / parcelas).toFixed(2)))`, i.e. 320/parcelas rounded
half-up to whole cents (exact decimal model of `toFixed(2)` at these
magnitudes). Only evaluated with `1 ≤ p`. -/
def valorCentsServer (p : Int) : Int := (64000 + p) / (2 * p)

/-- The `parcelas` row the route inserts for installment `q`. -/
def mkParcela (iid : Nat) (vc : Int) (vencs : List Str) (q : Nat) (pay : PayResult) :
    Parcela :=
  { inscritoId := iid, parcela := q, valorCents := vc,
    vencimento := vencs.getD (q - 1) [], status := "PENDING".toList,
    boletoUrl := pay.bankSlipUrl, asaasPaymentId := pay.payId }

/-- The sequential charge loop `for (p = 1; p <= parcelas; p++)` of
server.js: each successful gateway call persists its row before the next
index is attempted; the first failure returns a 502 naming that index and
leaves the store as it is at that point (no rollback). -/
def chargeLoop (iid : Nat) (vc : Int) (vencs : List Str)
    (gw : Nat → Except Str PayResult) :
    List Nat → Store → List Item → Store × Resp
  | [], st, acc => (st, .okResp acc)
  | p :: rest, st, acc =>
    match gw p with
    | .error e => (st, .chargeErr p e)
    | .ok pay =>
      chargeLoop iid vc vencs gw rest
        { st with parcelas := st.parcelas ++ [mkParcela iid vc vencs p pay] }
        (acc ++ [{ parcela := p, boletoUrl := pay.bankSlipUrl,
                   vencimento := vencs.getD (p - 1) [] }])

/-- `POST /pagamentos/asaas/boletos/:id` (server.js lines 522-605), with
the remote collaborators passed as oracles.  NOTE: the requested count is
used as sent (`Number(req.body.parcelas || 3)`) — it is **not** clamped to
[1, 3] in this iteration of the route. -/
def boletosServer (st : Store) (inscritoId : Nat) (parcelasReq : Option Int)
    (escolhidas : List Str) (minDate : CDate) (customer : Except Str Unit)
    (gw : Nat → Except Str PayResult) : Store × Resp :=
  let parcelas := numOr3 parcelasReq
  if st.inscritos.any (fun i => i.id == inscritoId) = false then (st, .notFound)
  else
    match customer with
    | .error e => (st, .customerErr e)
    | .ok _ =>
      match validarDatas parcelas escolhidas minDate with
      | .error e => (st, .datasErr e)
      | .ok vencs =>
        chargeLoop inscritoId (valorCentsServer parcelas) vencs gw
          (List.range' 1 parcelas.toNat) st []

/-! ### The part_000 boleto route (clamped count) -/

/-- `Math.min(3, Math.max(1, Number(req.body?.parcelas || 3)))` of the
part_000 route, on an integer-or-absent body field. -/
def clampQtd : Option Int → Int
  | none => 3
  | some v => if v = 0 then 3 else min 3 (max 1 v)

/-- The row the part_000 route inserts for installment index `idx`
(0-based): amount from `dividirValor`, date from the auto planner, status
`(pay.status || 'PENDING').toLowerCase()` modelled for the plain-`ok`
gateway reply (`pay.status` absent). -/
def mkParcela0 (iid : Nat) (valores : List Nat) (idx : Nat)
    (pay : PayResult) : Parcela :=
  { inscritoId := iid, parcela := idx + 1, valorCents := (valores.getD idx 0 : Int),
    vencimento := [], status := "pending".toList,
    boletoUrl := pay.bankSlipUrl, asaasPaymentId := pay.payId }

/-- `POST /pagamentos/asaas/boletos/:inscritoId` of part_000 (lines
1101-1162) on the all-success gateway path (a gateway throw inside the
`db.get` callback escapes the route's `try` uncaught): clamp the count to
[1, 3], split the amount with `dividirValor`, insert one row per
installment, then set the registration's status to `parcial`.  The due
dates (from `gerarVencimentosAteDeadline`, sent to the gateway and stored
as strings) are omitted from the stored rows in this model; no claim
about this route depends on them. -/
def boletosPart000 (st : Store) (inscritoId : Nat) (parcelasReq : Option Int)
    (gw : Nat → PayResult) : Store × Bool :=
  if st.inscritos.any (fun i => i.id == inscritoId) = false then (st, false)
  else
    let qtd := clampQtd parcelasReq
    let valores := dividirValor 32000 qtd.toNat
    let novas := (List.range qtd.toNat).map (fun idx => mkParcela0 inscritoId valores idx (gw idx))
    ({ inscritos := st.inscritos.map
         (fun i => if i.id == inscritoId then { i with status := "parcial".toList } else i),
       parcelas := st.parcelas ++ novas }, true)

/-! ### The payment reconciler (`POST /webhook/asaas`, server.js) -/

/-- `statusUpper === 'RECEIVED' || statusUpper === 'CONFIRMED'`. -/
def isSuccessStatus (s : Str) : Bool :=
  upStr s == "RECEIVED".toList || upStr s == "CONFIRMED".toList

/-- `UPDATE parcelas SET status=$1 WHERE asaas_payment_id=$2` on one row:
the raw status string is written verbatim onto a matching parcela. -/
def updParcela (pid s : Str) (p : Parcela) : Parcela :=
  if p.asaasPaymentId == pid then { p with status := s } else p

/-- Row filter of the registration update's
`id IN (SELECT inscrito_id FROM parcelas WHERE asaas_payment_id=$1)`. -/
def matchesPid (pid : Str) (iid : Nat) (p : Parcela) : Bool :=
  p.asaasPaymentId == pid && p.inscritoId == iid

/-- `UPDATE inscritos SET status='quitado' WHERE id IN (...)` on one row. -/
def updInscrito (parcelas2 : List Parcela) (pid : Str) (i : Inscrito) : Inscrito :=
  if parcelas2.any (matchesPid pid i.id) then { i with status := "quitado".toList } else i

/-- `POST /webhook/asaas` (server.js lines 610-650), after the optional
token check, on a payload carrying `payment = {id, status}` (`none` is the
`skip` path).  The raw status string is written verbatim onto every
parcela whose `asaas_payment_id` matches; if the upper-cased status is
RECEIVED or CONFIRMED, every registration owning a matching parcela is set
to `quitado` unconditionally.  The route always answers `ok: true`. -/
def webhookAsaas (st : Store) (payment : Option (Str × Str)) : Store × Bool :=
  match payment with
  | none => (st, true)
  | some (pid, rawStatus) =>
    let parcelas2 := st.parcelas.map (updParcela pid rawStatus)
    if isSuccessStatus rawStatus then
      ({ inscritos := st.inscritos.map (updInscrito parcelas2 pid),
         parcelas := parcelas2 }, true)
    else ({ st with parcelas := parcelas2 }, true)

/-! ### The administrative cancel route (server.js) -/

/-- `COALESCE(status,'') ILIKE 'PEND%'`: case-insensitive PEND prefix. -/
def pendPrefixed (s : Str) : Bool := (upStr s).take 4 == "PEND".toList

/-- `UPDATE parcelas SET status='CANCELLED' WHERE inscrito_id=$1 AND
COALESCE(status,'') ILIKE 'PEND%'` on one row. -/
def cancelParcela (id : Nat) (p : Parcela) : Parcela :=
  if p.inscritoId == id && pendPrefixed p.status then
    { p with status := "CANCELLED".toList } else p

/-- `UPDATE inscritos SET status='cancelado' ... WHERE id=$1` on one row. -/
def cancelInscrito (id : Nat) (i : Inscrito) : Inscrito :=
  if i.id == id then { i with status := "cancelado".toList } else i

/-- `POST /api/admin/inscritos/:id/cancel` (server.js lines 887-935): in
one transaction, set the registration to `cancelado` (404/rollback if it
does not exist) and set status `CANCELLED` on exactly its parcelas whose
status starts with PEND case-insensitively; the best-effort remote cancel
does not touch the store. -/
def adminCancel (st : Store) (id : Nat) : Store × Bool :=
  if st.inscritos.any (fun i => i.id == id) = false then (st, false)
  else
    ({ inscritos := st.inscritos.map (cancelInscrito id),
       parcelas := st.parcelas.map (cancelParcela id) }, true)

/-! ### Concrete store states used by witnesses and counterexamples -/

/-- A two-installment registration, both installments still pending. -/
def pW1 : Parcela :=
  ⟨1, 1, 16000, "2026-02-01".toList, "PENDING".toList, none, "pay_1".toList⟩

/-- Sibling installment of `pW1`. -/
def pW2 : Parcela :=
  ⟨1, 2, 16000, "2026-04-01".toList, "PENDING".toList, none, "pay_2".toList⟩

/-- Store with one `parcial` registration owning `pW1` and `pW2`. -/
def stW : Store := ⟨[⟨1, "parcial".toList⟩], [pW1, pW2]⟩

/-- Store with one administratively canceled registration that still owns a
pending installment with a live gateway payment id. -/
def stCanc : Store :=
  ⟨[⟨7, "cancelado".toList⟩],
   [⟨7, 1, 32000, "2026-04-01".toList, "PENDING".toList, none, "pay_9".toList⟩]⟩

/-- Pending installment of registration 1 (admin-cancel witness). -/
def pA : Parcela :=
  ⟨1, 1, 10666, "2026-02-01".toList, "pending".toList, none, "pa".toList⟩

/-- Already-received installment of registration 1 (admin-cancel witness). -/
def pB : Parcela :=
  ⟨1, 2, 10666, "2026-03-01".toList, "RECEIVED".toList, none, "pb".toList⟩

/-- Installment of the unrelated registration 2 (admin-cancel witness). -/
def pC : Parcela :=
  ⟨2, 1, 32000, "2026-04-01".toList, "PENDING".toList, none, "pc".toList⟩

/-- Store with two registrations for the admin-cancel witness. -/
def stAdm : Store := ⟨[⟨1, "parcial".toList⟩, ⟨2, "pendente".toList⟩], [pA, pB, pC]⟩

/-- Store with one pending registration and no installments yet. -/
def stB : Store := ⟨[⟨1, "pendente".toList⟩], []⟩

/-- Gateway oracle that accepts installment 1 and fails installment 2. -/
def gwFail2 : Nat → Except Str PayResult :=
  fun p => if p = 1 then .ok ⟨"ch_1".toList, none, none⟩
           else .error "gateway down".toList

/-- The successful gateway replies behind `gwFail2`. -/
def payfW : Nat → PayResult := fun _ => ⟨"ch_1".toList, none, none⟩

/-- Three valid, distinct client dates (for a 4-installment request). -/
def escolhidas4 : List Str :=
  ["2026-01-10".toList, "2026-02-10".toList, "2026-03-10".toList]

/-- Gateway oracle that accepts every installment. -/
def gwOk : Nat → Except Str PayResult :=
  fun p => .ok ⟨"ch".toList ++ [Char.ofNat (48 + p)], none, none⟩

/-- Always-successful gateway for the part_000 route. -/
def gwP : Nat → PayResult := fun _ => ⟨"pp".toList, none, none⟩

/-! ## Helper lemmas -/

theorem updParcela_asaasPaymentId (pid s : Str) (p : Parcela) :
    (updParcela pid s p).asaasPaymentId = p.asaasPaymentId := by
  unfold updParcela; split <;> rfl

theorem updParcela_inscritoId (pid s : Str) (p : Parcela) :
    (updParcela pid s p).inscritoId = p.inscritoId := by
  unfold updParcela; split <;> rfl

theorem updParcela_idem (pid s : Str) (p : Parcela) :
    updParcela pid s (updParcela pid s p) = updParcela pid s p := by
  unfold updParcela
  by_cases h : (p.asaasPaymentId == pid) = true <;> simp [h]

theorem matchesPid_updParcela (pid s : Str) (iid : Nat) (p : Parcela) :
    matchesPid pid iid (updParcela pid s p) = matchesPid pid iid p := by
  unfold matchesPid
  rw [updParcela_asaasPaymentId, updParcela_inscritoId]

theorem any_matchesPid_map (pid s : Str) (iid : Nat) (l : List Parcela) :
    (l.map (updParcela pid s)).any (matchesPid pid iid) = l.any (matchesPid pid iid) := by
  induction l with
  | nil => rfl
  | cons p t ih => simp [List.any_cons, matchesPid_updParcela, ih]

theorem updInscrito_id (l : List Parcela) (pid : Str) (i : Inscrito) :
    (updInscrito l pid i).id = i.id := by
  unfold updInscrito; split <;> rfl

theorem updInscrito_idem (l : List Parcela) (pid : Str) (i : Inscrito) :
    updInscrito l pid (updInscrito l pid i) = updInscrito l pid i := by
  unfold updInscrito
  by_cases h : l.any (matchesPid pid i.id) = true <;> simp [h]

theorem webhook_updates_parcela (st : Store) (pid s : Str) (k : Nat) (p : Parcela)
    (hk : st.parcelas[k]? = some p) :
    (webhookAsaas st (some (pid, s))).1.parcelas[k]? = some (updParcela pid s p) := by
  unfold webhookAsaas
  by_cases hs : isSuccessStatus s = true <;> simp [hs, List.getElem?_map, hk]

theorem webhook_settles (st : Store) (pid s : Str) (hs : isSuccessStatus s = true)
    (k : Nat) (i : Inscrito) (hk : st.inscritos[k]? = some i)
    (hm : st.parcelas.any (matchesPid pid i.id) = true) :
    (webhookAsaas st (some (pid, s))).1.inscritos[k]? =
      some { i with status := "quitado".toList } := by
  unfold webhookAsaas
  simp only [hs, if_true, List.getElem?_map, hk, Option.map_some']
  congr 1
  unfold updInscrito
  rw [any_matchesPid_map, hm]
  simp

theorem webhook_ok (st : Store) (payment : Option (Str × Str)) :
    (webhookAsaas st payment).2 = true := by
  unfold webhookAsaas
  rcases payment with _ | ⟨pid, s⟩
  · rfl
  · by_cases hs : isSuccessStatus s = true <;> simp [hs]

theorem webhookAsaas_some_true (st : Store) (pid s : Str)
    (hs : isSuccessStatus s = true) :
    webhookAsaas st (some (pid, s)) =
      ({ inscritos := st.inscritos.map (updInscrito (st.parcelas.map (updParcela pid s)) pid),
         parcelas := st.parcelas.map (updParcela pid s) }, true) := by
  unfold webhookAsaas
  simp [hs]

theorem webhookAsaas_some_false (st : Store) (pid s : Str)
    (hs : isSuccessStatus s = false) :
    webhookAsaas st (some (pid, s)) =
      ({ st with parcelas := st.parcelas.map (updParcela pid s) }, true) := by
  unfold webhookAsaas
  simp [hs]

theorem adminCancel_found (st : Store) (id : Nat)
    (h : st.inscritos.any (fun i => i.id == id) = true) :
    adminCancel st id =
      ({ inscritos := st.inscritos.map (cancelInscrito id),
         parcelas := st.parcelas.map (cancelParcela id) }, true) := by
  unfold adminCancel
  rw [if_neg (by simp [h])]

/-! ## Claims -/

/-- Claim C1: for every `totalCents ≥ 0` and `count ∈ {1,2,3}`, the
planner's amount split (`dividirValor`) assigns `floor(totalCents/count)`
cents to each of the first `count - 1` installments and the remainder
(`totalCents` minus the sum of the others) to the last installment, so the
sum of all planned amounts equals `totalCents` exactly. -/
theorem c1_amount_split (t n : Nat) (hn : n = 1 ∨ n = 2 ∨ n = 3) :
    (dividirValor t n).length = n ∧
    (∀ i, i + 1 < n → (dividirValor t n).getD i 0 = t / n) ∧
    (dividirValor t n).getD (n - 1) 0 = t - (n - 1) * (t / n) ∧
    (dividirValor t n).sum = t := by
  have h2 := Nat.div_mul_le_self t 2
  have h3 := Nat.div_mul_le_self t 3
  rcases hn with rfl | rfl | rfl
  · refine ⟨by simp [dividirValor], fun i hi => by omega, ?_, ?_⟩
    · simp [dividirValor]
    · simp [dividirValor]
  · refine ⟨by simp [dividirValor], ?_, ?_, ?_⟩
    · intro i hi
      have : i = 0 := by omega
      subst this
      simp [dividirValor]
    · simp [dividirValor]; omega
    · simp [dividirValor]; omega
  · refine ⟨by simp [dividirValor], ?_, ?_, ?_⟩
    · intro i hi
      have : i = 0 ∨ i = 1 := by omega
      rcases this with rfl | rfl <;> simp [dividirValor]
    · simp [dividirValor]; omega
    · simp [dividirValor]; omega

/-- Witness for C1 at `totalCents = 32000`, `count = 3`. -/
theorem c1_amount_split_witness :
    dividirValor 32000 3 = [10666, 10666, 10668] ∧ (dividirValor 32000 3).sum = 32000 :=
  ⟨by decide, (c1_amount_split 32000 3 (by omega)).2.2.2⟩

/-- Claim C3: for every installment matched by external payment id,
applying a notification whose status is case-insensitively RECEIVED or
CONFIRMED writes the raw status string verbatim onto that installment's
status field and immediately sets the parent registration's status to
`quitado`, regardless of the states of the sibling installments (the store
`st` — and hence the sibling rows — is arbitrary). -/
theorem c3_success_notification (st : Store) (pid s : Str)
    (hs : isSuccessStatus s = true) :
    (∀ (k : Nat) (p : Parcela), st.parcelas[k]? = some p → p.asaasPaymentId = pid →
       (webhookAsaas st (some (pid, s))).1.parcelas[k]? = some { p with status := s }) ∧
    (∀ (k : Nat) (i : Inscrito), st.inscritos[k]? = some i →
       st.parcelas.any (matchesPid pid i.id) = true →
       (webhookAsaas st (some (pid, s))).1.inscritos[k]? =
         some { i with status := "quitado".toList }) ∧
    (webhookAsaas st (some (pid, s))).2 = true := by
  refine ⟨?_, ?_, webhook_ok st _⟩
  · intro k p hk hpid
    have h := webhook_updates_parcela st pid s k p hk
    rwa [updParcela, if_pos (by simp [hpid])] at h
  · exact fun k i hk hm => webhook_settles st pid s hs k i hk hm

/-- Witness for C3: a RECEIVED notification for `pay_1` on `stW` rewrites
installment 1 verbatim and settles the registration even though the
sibling installment is still PENDING. -/
theorem c3_success_notification_witness :
    (webhookAsaas stW (some ("pay_1".toList, "RECEIVED".toList))).1.parcelas[0]? =
      some { pW1 with status := "RECEIVED".toList } ∧
    (webhookAsaas stW (some ("pay_1".toList, "RECEIVED".toList))).1.inscritos[0]? =
      some ⟨1, "quitado".toList⟩ :=
  ⟨(c3_success_notification stW "pay_1".toList "RECEIVED".toList (by decide)).1 0 pW1 rfl rfl,
   (c3_success_notification stW "pay_1".toList "RECEIVED".toList (by decide)).2.1 0
     ⟨1, "parcial".toList⟩ rfl (by decide)⟩

/-- Counterexample to claim C4: a registration whose status is already
`cancelado` and that owns an installment matching the notification's
payment id does **not** stay `cancelado` when a RECEIVED notification
arrives — the webhook overwrites it to `quitado`. -/
theorem c4_counterexample :
    (webhookAsaas stCanc (some ("pay_9".toList, "RECEIVED".toList))).1.inscritos =
      [⟨7, "quitado".toList⟩] ∧
    (webhookAsaas stCanc (some ("pay_9".toList, "RECEIVED".toList))).1.inscritos ≠
      [⟨7, "cancelado".toList⟩] := by
  constructor <;> decide

/-- Claim C4 as amended: the webhook's registration update is
unconditional — a registration already `cancelado` that owns an
installment matching a success notification has its status overwritten to
`quitado`; administrative cancellation is not protected from the
reconciler. -/
theorem c4_amended_overwrite (st : Store) (pid s : Str)
    (hs : isSuccessStatus s = true) :
    ∀ (k : Nat) (i : Inscrito), st.inscritos[k]? = some i →
      i.status = "cancelado".toList →
      st.parcelas.any (matchesPid pid i.id) = true →
      (webhookAsaas st (some (pid, s))).1.inscritos[k]? =
        some { i with status := "quitado".toList } :=
  fun k i hk _ hm => webhook_settles st pid s hs k i hk hm

/-- Witness for the amended C4 at the concrete canceled store. -/
theorem c4_amended_overwrite_witness :
    (webhookAsaas stCanc (some ("pay_9".toList, "RECEIVED".toList))).1.inscritos[0]? =
      some ⟨7, "quitado".toList⟩ :=
  c4_amended_overwrite stCanc "pay_9".toList "RECEIVED".toList (by decide) 0
    ⟨7, "cancelado".toList⟩ rfl rfl (by decide)

/-- Claim C7: a notification whose external payment id matches no stored
installment returns success and mutates nothing. -/
theorem c7_unknown_noop (st : Store) (pid s : Str)
    (h : ∀ p ∈ st.parcelas, (p.asaasPaymentId == pid) = false) :
    webhookAsaas st (some (pid, s)) = (st, true) := by
  have hp : st.parcelas.map (updParcela pid s) = st.parcelas := by
    have hpt := List.map_congr_left (l := st.parcelas)
      (f := updParcela pid s) (g := id) ?_
    · simpa using hpt
    · intro p hpmem
      unfold updParcela
      simp [h p hpmem]
  have hany : ∀ iid, st.parcelas.any (matchesPid pid iid) = false := by
    intro iid
    rw [List.any_eq_false]
    intro p hpmem
    unfold matchesPid
    simp [h p hpmem]
  have hi : st.inscritos.map (updInscrito st.parcelas pid) = st.inscritos := by
    have hit := List.map_congr_left (l := st.inscritos)
      (f := updInscrito st.parcelas pid) (g := id) ?_
    · simpa using hit
    · intro i _
      unfold updInscrito
      simp [hany i.id]
  cases hs : isSuccessStatus s
  · rw [webhookAsaas_some_false st pid s hs, hp]
  · rw [webhookAsaas_some_true st pid s hs, hp, hi]

/-- Witness for C7: an unknown payment id leaves `stW` untouched. -/
theorem c7_unknown_noop_witness :
    webhookAsaas stW (some ("pay_zz".toList, "RECEIVED".toList)) = (stW, true) :=
  c7_unknown_noop stW "pay_zz".toList "RECEIVED".toList (by decide)

/-- Claim C8: delivering the same notification twice is idempotent — for
every store state and payload, the state (and response) after the second
application equals the state after the first. -/
theorem c8_idempotent (st : Store) (payment : Option (Str × Str)) :
    webhookAsaas (webhookAsaas st payment).1 payment = webhookAsaas st payment := by
  rcases payment with _ | ⟨pid, s⟩
  · rfl
  · have hpar : ∀ l : List Parcela,
        (l.map (updParcela pid s)).map (updParcela pid s) = l.map (updParcela pid s) := by
      intro l
      rw [List.map_map]
      exact List.map_congr_left (fun p _ => updParcela_idem pid s p)
    cases hs : isSuccessStatus s
    · rw [webhookAsaas_some_false st pid s hs]
      rw [webhookAsaas_some_false _ pid s hs]
      simp only [hpar st.parcelas]
    · have hins : ∀ (li : List Inscrito) (lp : List Parcela),
          (li.map (updInscrito lp pid)).map (updInscrito lp pid) =
            li.map (updInscrito lp pid) := by
        intro li lp
        rw [List.map_map]
        exact List.map_congr_left (fun i _ => updInscrito_idem lp pid i)
      rw [webhookAsaas_some_true st pid s hs]
      rw [webhookAsaas_some_true _ pid s hs]
      simp only [hpar st.parcelas]
      rw [hins st.inscritos (st.parcelas.map (updParcela pid s))]

/-- Claim C10: the administrative cancel of an existing registration sets
that registration's status to `cancelado`, rewrites to CANCELLED exactly
its installments whose status starts with PEND case-insensitively, leaves
every other installment of that registration completely unchanged (status,
amount, due date, external payment id), and touches neither other
registrations nor their installments. -/
theorem c10_admin_cancel (st : Store) (id : Nat)
    (h : st.inscritos.any (fun i => i.id == id) = true) :
    (adminCancel st id).2 = true ∧
    (adminCancel st id).1.inscritos.length = st.inscritos.length ∧
    (adminCancel st id).1.parcelas.length = st.parcelas.length ∧
    (∀ (k : Nat) (i : Inscrito), st.inscritos[k]? = some i → i.id = id →
       (adminCancel st id).1.inscritos[k]? = some { i with status := "cancelado".toList }) ∧
    (∀ (k : Nat) (i : Inscrito), st.inscritos[k]? = some i → i.id ≠ id →
       (adminCancel st id).1.inscritos[k]? = some i) ∧
    (∀ (k : Nat) (p : Parcela), st.parcelas[k]? = some p → p.inscritoId = id →
       pendPrefixed p.status = true →
       (adminCancel st id).1.parcelas[k]? = some { p with status := "CANCELLED".toList }) ∧
    (∀ (k : Nat) (p : Parcela), st.parcelas[k]? = some p → p.inscritoId = id →
       pendPrefixed p.status = false →
       (adminCancel st id).1.parcelas[k]? = some p) ∧
    (∀ (k : Nat) (p : Parcela), st.parcelas[k]? = some p → p.inscritoId ≠ id →
       (adminCancel st id).1.parcelas[k]? = some p) := by
  rw [adminCancel_found st id h]
  refine ⟨rfl, by simp, by simp, ?_, ?_, ?_, ?_, ?_⟩
  · intro k i hk hid
    simp only [List.getElem?_map, hk, Option.map_some']
    unfold cancelInscrito
    simp [hid]
  · intro k i hk hid
    simp only [List.getElem?_map, hk, Option.map_some']
    unfold cancelInscrito
    simp [hid]
  · intro k p hk hid hpend
    simp only [List.getElem?_map, hk, Option.map_some']
    unfold cancelParcela
    simp [hid, hpend]
  · intro k p hk hid hpend
    simp only [List.getElem?_map, hk, Option.map_some']
    unfold cancelParcela
    simp [hid, hpend]
  · intro k p hk hid
    simp only [List.getElem?_map, hk, Option.map_some']
    unfold cancelParcela
    simp [hid]

/-- Witness for C10 at `stAdm`: the pending installment of registration 1
becomes CANCELLED, its RECEIVED sibling is untouched, registration 2's
installment and row are untouched, and registration 1 is `cancelado`. -/
theorem c10_admin_cancel_witness :
    (adminCancel stAdm 1).1.parcelas[0]? = some { pA with status := "CANCELLED".toList } ∧
    (adminCancel stAdm 1).1.parcelas[1]? = some pB ∧
    (adminCancel stAdm 1).1.parcelas[2]? = some pC ∧
    (adminCancel stAdm 1).1.inscritos[0]? = some ⟨1, "cancelado".toList⟩ ∧
    (adminCancel stAdm 1).1.inscritos[1]? = some ⟨2, "pendente".toList⟩ :=
  ⟨(c10_admin_cancel stAdm 1 (by decide)).2.2.2.2.2.1 0 pA rfl rfl (by decide),
   (c10_admin_cancel stAdm 1 (by decide)).2.2.2.2.2.2.1 1 pB rfl rfl (by decide),
   (c10_admin_cancel stAdm 1 (by decide)).2.2.2.2.2.2.2 2 pC rfl (by decide),
   (c10_admin_cancel stAdm 1 (by decide)).2.2.2.1 0 ⟨1, "parcial".toList⟩ rfl rfl,
   (c10_admin_cancel stAdm 1 (by decide)).2.2.2.2.1 1 ⟨2, "pendente".toList⟩ rfl (by decide)⟩

/-! ## String order and sorting lemmas -/

theorem char_eq_of_toNat_eq {a b : Char} (h : a.toNat = b.toNat) : a = b :=
  Char.eq_of_val_eq (UInt32.ext h)

theorem lexLt_irrefl (s : Str) : lexLt s s = false := by
  induction s with
  | nil => rfl
  | cons a t ih => simp [lexLt, ih]

theorem lexLt_trans : ∀ (a b c : Str), lexLt a b = true → lexLt b c = true →
    lexLt a c = true := by
  intro a
  induction a with
  | nil =>
    intro b c h1 h2
    cases c with
    | nil => cases b <;> simp [lexLt] at h1 h2
    | cons c0 ct => simp [lexLt]
  | cons a0 s ih =>
    intro b c h1 h2
    cases b with
    | nil => simp [lexLt] at h1
    | cons b0 bt =>
      cases c with
      | nil => simp [lexLt] at h2
      | cons c0 ct =>
        simp only [lexLt] at h1 h2 ⊢
        rcases Nat.lt_trichotomy a0.toNat b0.toNat with hab | hab | hab <;>
          rcases Nat.lt_trichotomy b0.toNat c0.toNat with hbc | hbc | hbc
        · rw [if_pos (by omega)]
        · rw [if_pos (by omega)]
        · rw [if_neg (by omega), if_pos (by omega)] at h2; exact absurd h2 (by simp)
        · rw [if_pos (by omega)]
        · rw [if_neg (by omega), if_neg (by omega)] at h1 h2 ⊢
          exact ih bt ct h1 h2
        · rw [if_neg (by omega), if_pos (by omega)] at h2; exact absurd h2 (by simp)
        · rw [if_neg (by omega), if_pos (by omega)] at h1; exact absurd h1 (by simp)
        · rw [if_neg (by omega), if_pos (by omega)] at h1; exact absurd h1 (by simp)
        · rw [if_neg (by omega), if_pos (by omega)] at h1; exact absurd h1 (by simp)

theorem lexLt_asymm {a b : Str} (h : lexLt a b = true) : lexLt b a = false := by
  by_contra hc
  have hb : lexLt b a = true := by
    cases hx : lexLt b a
    · exact absurd hx hc
    · rfl
  have hself := lexLt_trans a b a h hb
  rw [lexLt_irrefl] at hself
  exact absurd hself (by simp)

theorem eq_of_not_lexLt {a b : Str} (h1 : lexLt a b = false) (h2 : lexLt b a = false) :
    a = b := by
  induction a generalizing b with
  | nil =>
    cases b with
    | nil => rfl
    | cons b0 bt => simp [lexLt] at h1
  | cons a0 s ih =>
    cases b with
    | nil => simp [lexLt] at h2
    | cons b0 bt =>
      simp only [lexLt] at h1 h2
      rcases Nat.lt_trichotomy a0.toNat b0.toNat with hab | hab | hab
      · rw [if_pos (by omega)] at h1; exact absurd h1 (by simp)
      · rw [if_neg (by omega), if_neg (by omega)] at h1 h2
        rw [char_eq_of_toNat_eq hab, ih h1 h2]
      · rw [if_pos (by omega)] at h2; exact absurd h2 (by simp)

theorem lexLe_trans {a b c : Str} (h1 : lexLe a b = true) (h2 : lexLe b c = true) :
    lexLe a c = true := by
  unfold lexLe at *
  simp only [Bool.not_eq_true'] at h1 h2 ⊢
  cases hx : lexLt c a
  · rfl
  · cases hab : lexLt a b
    · rw [eq_of_not_lexLt hab h1] at hx
      rw [hx] at h2
      exact absurd h2 (by simp)
    · have hcb := lexLt_trans c a b hx hab
      rw [hcb] at h2
      exact absurd h2 (by simp)

theorem lexLt_of_lexLe_of_ne {a b : Str} (h1 : lexLe a b = true) (h2 : a ≠ b) :
    lexLt a b = true := by
  unfold lexLe at h1
  simp only [Bool.not_eq_true'] at h1
  cases hab : lexLt a b
  · exact absurd (eq_of_not_lexLt hab h1) h2
  · rfl

theorem lexLe_of_lexLt {a b : Str} (h : lexLt a b = true) : lexLe a b = true := by
  unfold lexLe
  rw [lexLt_asymm h]
  rfl

theorem lex_step_iff (x y : Nat) (r : Bool) :
    ((if x < y then true else if y < x then false else r) = true) ↔
      (x < y ∨ (x = y ∧ r = true)) := by
  rcases Nat.lt_trichotomy x y with h | h | h
  · rw [if_pos h]
    constructor
    · intro _; exact Or.inl h
    · intro _; rfl
  · rw [if_neg (by omega), if_neg (by omega)]
    constructor
    · intro hr; exact Or.inr ⟨h, hr⟩
    · rintro (hlt | ⟨_, hr⟩)
      · omega
      · exact hr
  · rw [if_neg (by omega), if_pos (by omega)]
    constructor
    · intro hf; exact absurd hf (by simp)
    · rintro (hlt | ⟨heq, _⟩) <;> omega

theorem digit_bounds {c : Char} (h : isDigitB c = true) : 48 ≤ c.toNat ∧ c.toNat ≤ 57 := by
  unfold isDigitB at h
  exact of_decide_eq_true h

theorem nest2_iff (a1 a2 b1 b2 : Nat) (r : Prop)
    (ha1 : 48 ≤ a1 ∧ a1 ≤ 57) (ha2 : 48 ≤ a2 ∧ a2 ≤ 57)
    (hb1 : 48 ≤ b1 ∧ b1 ≤ 57) (hb2 : 48 ≤ b2 ∧ b2 ≤ 57) :
    (a1 < b1 ∨ a1 = b1 ∧ (a2 < b2 ∨ a2 = b2 ∧ r)) ↔
      (10 * (a1 - 48) + (a2 - 48) < 10 * (b1 - 48) + (b2 - 48) ∨
        10 * (a1 - 48) + (a2 - 48) = 10 * (b1 - 48) + (b2 - 48) ∧ r) := by
  by_cases hr : r <;> simp only [hr, and_true, and_false, or_false] <;> omega

theorem nest2_iff0 (a1 a2 b1 b2 : Nat)
    (ha1 : 48 ≤ a1 ∧ a1 ≤ 57) (ha2 : 48 ≤ a2 ∧ a2 ≤ 57)
    (hb1 : 48 ≤ b1 ∧ b1 ≤ 57) (hb2 : 48 ≤ b2 ∧ b2 ≤ 57) :
    (a1 < b1 ∨ a1 = b1 ∧ a2 < b2) ↔
      (10 * (a1 - 48) + (a2 - 48) < 10 * (b1 - 48) + (b2 - 48)) := by
  omega

theorem nest4_iff (a1 a2 a3 a4 b1 b2 b3 b4 : Nat) (r : Prop)
    (ha1 : 48 ≤ a1 ∧ a1 ≤ 57) (ha2 : 48 ≤ a2 ∧ a2 ≤ 57)
    (ha3 : 48 ≤ a3 ∧ a3 ≤ 57) (ha4 : 48 ≤ a4 ∧ a4 ≤ 57)
    (hb1 : 48 ≤ b1 ∧ b1 ≤ 57) (hb2 : 48 ≤ b2 ∧ b2 ≤ 57)
    (hb3 : 48 ≤ b3 ∧ b3 ≤ 57) (hb4 : 48 ≤ b4 ∧ b4 ≤ 57) :
    (a1 < b1 ∨ a1 = b1 ∧ (a2 < b2 ∨ a2 = b2 ∧ (a3 < b3 ∨ a3 = b3 ∧
        (a4 < b4 ∨ a4 = b4 ∧ r)))) ↔
      (1000 * (a1 - 48) + 100 * (a2 - 48) + 10 * (a3 - 48) + (a4 - 48) <
          1000 * (b1 - 48) + 100 * (b2 - 48) + 10 * (b3 - 48) + (b4 - 48) ∨
        1000 * (a1 - 48) + 100 * (a2 - 48) + 10 * (a3 - 48) + (a4 - 48) =
            1000 * (b1 - 48) + 100 * (b2 - 48) + 10 * (b3 - 48) + (b4 - 48) ∧ r) := by
  by_cases hr : r <;> simp only [hr, and_true, and_false, or_false] <;> omega

theorem lexLt_digits (y1 y2 y3 y4 m1 m2 d1 d2 u1 u2 u3 u4 v1 v2 w1 w2 : Char)
    (hy1 : isDigitB y1 = true) (hy2 : isDigitB y2 = true)
    (hy3 : isDigitB y3 = true) (hy4 : isDigitB y4 = true)
    (hm1 : isDigitB m1 = true) (hm2 : isDigitB m2 = true)
    (hd1 : isDigitB d1 = true) (hd2 : isDigitB d2 = true)
    (hu1 : isDigitB u1 = true) (hu2 : isDigitB u2 = true)
    (hu3 : isDigitB u3 = true) (hu4 : isDigitB u4 = true)
    (hv1 : isDigitB v1 = true) (hv2 : isDigitB v2 = true)
    (hw1 : isDigitB w1 = true) (hw2 : isDigitB w2 = true) :
    lexLt [y1, y2, y3, y4, '-', m1, m2, '-', d1, d2]
        [u1, u2, u3, u4, '-', v1, v2, '-', w1, w2] =
      dateLtB ⟨decodeY y1 y2 y3 y4, decode2 m1 m2, decode2 d1 d2⟩
        ⟨decodeY u1 u2 u3 u4, decode2 v1 v2, decode2 w1 w2⟩ := by
  have b1 := digit_bounds hy1
  have b2 := digit_bounds hy2
  have b3 := digit_bounds hy3
  have b4 := digit_bounds hy4
  have b5 := digit_bounds hm1
  have b6 := digit_bounds hm2
  have b7 := digit_bounds hd1
  have b8 := digit_bounds hd2
  have c1 := digit_bounds hu1
  have c2 := digit_bounds hu2
  have c3 := digit_bounds hu3
  have c4 := digit_bounds hu4
  have c5 := digit_bounds hv1
  have c6 := digit_bounds hv2
  have c7 := digit_bounds hw1
  have c8 := digit_bounds hw2
  rw [Bool.eq_iff_iff]
  simp only [lexLt, lex_step_iff, dateLtB, decodeY, decode2, dval,
    Bool.or_eq_true, Bool.and_eq_true, decide_eq_true_eq, Bool.false_eq_true,
    lt_self_iff_false, true_and, and_true, false_or, or_false, and_false, ite_false, ite_true]
  rw [nest2_iff0 d1.toNat d2.toNat w1.toNat w2.toNat b7 b8 c7 c8]
  rw [nest2_iff m1.toNat m2.toNat v1.toNat v2.toNat _ b5 b6 c5 c6]
  rw [nest4_iff y1.toNat y2.toNat y3.toNat y4.toNat u1.toNat u2.toNat u3.toNat u4.toNat
    _ b1 b2 b3 b4 c1 c2 c3 c4]

theorem insertLex_perm (x : Str) (l : List Str) : List.Perm (insertLex x l) (x :: l) := by
  induction l with
  | nil => exact List.Perm.refl _
  | cons y t ih =>
    unfold insertLex
    by_cases h : lexLt x y = true
    · rw [if_pos h]
    · rw [if_neg h]
      exact (ih.cons y).trans (List.Perm.swap x y t)

theorem sortLex_perm (l : List Str) : List.Perm (sortLex l) l := by
  induction l with
  | nil => exact List.Perm.refl _
  | cons x t ih =>
    unfold sortLex
    exact (insertLex_perm x (sortLex t)).trans (ih.cons x)

theorem pairwise_insertLex {x : Str} {l : List Str}
    (hl : l.Pairwise (fun a b => lexLe a b = true)) :
    (insertLex x l).Pairwise (fun a b => lexLe a b = true) := by
  induction l with
  | nil => simp [insertLex]
  | cons y t ih =>
    rcases List.pairwise_cons.mp hl with ⟨hy, ht⟩
    unfold insertLex
    by_cases h : lexLt x y = true
    · rw [if_pos h]
      refine List.pairwise_cons.mpr ⟨?_, hl⟩
      intro z hz
      rcases List.mem_cons.mp hz with rfl | hzt
      · exact lexLe_of_lexLt h
      · exact lexLe_trans (lexLe_of_lexLt h) (hy z hzt)
    · rw [if_neg h]
      refine List.pairwise_cons.mpr ⟨?_, ih ht⟩
      intro z hz
      have hz2 : z = x ∨ z ∈ t := by
        have hzp := (insertLex_perm x t).mem_iff.mp hz
        simpa using hzp
      rcases hz2 with rfl | hzt
      · unfold lexLe
        rw [Bool.not_eq_true] at h
        rw [h]
        rfl
      · exact hy z hzt

theorem pairwise_sortLex (l : List Str) :
    (sortLex l).Pairwise (fun a b => lexLe a b = true) := by
  induction l with
  | nil => simp [sortLex]
  | cons x t ih =>
    unfold sortLex
    exact pairwise_insertLex ih

theorem chain_ne_of_hasAdjDup_false : ∀ {l : List Str}, hasAdjDup l = false →
    l.Chain' (fun a b => a ≠ b) := by
  intro l
  induction l with
  | nil => intro _; trivial
  | cons a t ih =>
    intro h
    cases t with
    | nil => simp
    | cons b t2 =>
      unfold hasAdjDup at h
      rw [Bool.or_eq_false_iff] at h
      refine List.chain'_cons.mpr ⟨?_, ih h.2⟩
      intro hab
      rw [hab] at h
      simp at h

theorem chain_lt_of_le_ne : ∀ {l : List Str},
    l.Chain' (fun a b => lexLe a b = true) → l.Chain' (fun a b => a ≠ b) →
    l.Chain' (fun a b => lexLt a b = true) := by
  intro l
  induction l with
  | nil => intro _ _; trivial
  | cons a t ih =>
    intro h1 h2
    cases t with
    | nil => simp
    | cons b t2 =>
      rcases List.chain'_cons.mp h1 with ⟨hab, h1t⟩
      rcases List.chain'_cons.mp h2 with ⟨hne, h2t⟩
      exact List.chain'_cons.mpr ⟨lexLt_of_lexLe_of_ne hab hne, ih h1t h2t⟩

theorem getLast_of_chain_max : ∀ {l : List Str} {m : Str},
    l.Chain' (fun a b => lexLt a b = true) → m ∈ l →
    (∀ x ∈ l, lexLe x m = true) → l.getLast? = some m := by
  intro l
  induction l with
  | nil => intro m _ hm _; simp at hm
  | cons a t ih =>
    intro m hch hm hall
    cases t with
    | nil =>
      have hma : m = a := by simpa using hm
      simp [hma]
    | cons b t2 =>
      rcases List.chain'_cons.mp hch with ⟨hab, hch2⟩
      rcases List.mem_cons.mp hm with rfl | hmt
      · exfalso
        have hba := hall b (by simp)
        unfold lexLe at hba
        rw [hab] at hba
        simp at hba
      · have hl2 : (b :: t2).getLast? = some m :=
          ih hch2 hmt (fun x hx => hall x (by simp [hx]))
        simpa [List.getLast?_cons_cons] using hl2

theorem parseIsoDate_inv {s : Str} {t : CDate} (h : parseIsoDate s = some t) :
    ∃ y1 y2 y3 y4 m1 m2 d1 d2,
      s = [y1, y2, y3, y4, '-', m1, m2, '-', d1, d2] ∧
      isDigitB y1 = true ∧ isDigitB y2 = true ∧ isDigitB y3 = true ∧ isDigitB y4 = true ∧
      isDigitB m1 = true ∧ isDigitB m2 = true ∧ isDigitB d1 = true ∧ isDigitB d2 = true ∧
      t = ⟨decodeY y1 y2 y3 y4, decode2 m1 m2, decode2 d1 d2⟩ := by
  unfold parseIsoDate at h
  split at h
  next y1 y2 y3 y4 hc1 m1 m2 hc2 d1 d2 =>
    split at h
    next hguard =>
      split at h
      next hval =>
        rw [Option.some_inj] at h
        simp only [Bool.and_eq_true, beq_iff_eq] at hguard
        obtain ⟨⟨⟨⟨⟨⟨⟨⟨⟨g1, g2⟩, g3⟩, g4⟩, g5⟩, g6⟩, g7⟩, g8⟩, g9⟩, g10⟩ := hguard
        subst g5
        subst g8
        exact ⟨y1, y2, y3, y4, m1, m2, d1, d2, rfl, g1, g2, g3, g4, g6, g7, g9, g10, h.symm⟩
      next => exact absurd h (by simp)
    next => exact absurd h (by simp)
  next => exact absurd h (by simp)

theorem lexLt_parse {s1 s2 : Str} {t1 t2 : CDate}
    (h1 : parseIsoDate s1 = some t1) (h2 : parseIsoDate s2 = some t2) :
    lexLt s1 s2 = dateLtB t1 t2 := by
  obtain ⟨y1, y2, y3, y4, m1, m2, d1, d2, rfl, hy1, hy2, hy3, hy4, hm1, hm2, hd1, hd2, rfl⟩ :=
    parseIsoDate_inv h1
  obtain ⟨u1, u2, u3, u4, v1, v2, w1, w2, rfl, hu1, hu2, hu3, hu4, hv1, hv2, hw1, hw2, rfl⟩ :=
    parseIsoDate_inv h2
  exact lexLt_digits y1 y2 y3 y4 m1 m2 d1 d2 u1 u2 u3 u4 v1 v2 w1 w2 hy1 hy2 hy3 hy4
    hm1 hm2 hd1 hd2 hu1 hu2 hu3 hu4 hv1 hv2 hw1 hw2

theorem mapExcept_ok_mem {f : Nat → Except VErr Str} :
    ∀ {l : List Nat} {ys : List Str}, mapExcept f l = .ok ys →
      ∀ y ∈ ys, ∃ x ∈ l, f x = .ok y := by
  intro l
  induction l with
  | nil =>
    intro ys h y hy
    unfold mapExcept at h
    rw [Except.ok.injEq] at h
    subst h
    simp at hy
  | cons x t ih =>
    intro ys h y hy
    unfold mapExcept at h
    split at h
    · exact absurd h (by simp)
    next y0 heq =>
      split at h
      · exact absurd h (by simp)
      next ys0 heq2 =>
        rw [Except.ok.injEq] at h
        subst h
        rcases List.mem_cons.mp hy with rfl | hyt
        · exact ⟨x, by simp, heq⟩
        · obtain ⟨x2, hx2, hfx2⟩ := ih heq2 y hyt
          exact ⟨x2, by simp [hx2], hfx2⟩

theorem checkDataAt_ok {escolhidas : List Str} {minDate : CDate} {idx : Nat} {iso : Str}
    (h : checkDataAt escolhidas minDate idx = .ok iso) :
    iso = (escolhidas.getD idx []).take 10 ∧
      (∀ t, parseIsoDate iso = some t → dateLtB deadlineDate t = false) := by
  unfold checkDataAt at h
  simp only [] at h
  split at h
  · exact absurd h (by simp)
  · split at h
    next hparse =>
      rw [Except.ok.injEq] at h
      subst h
      refine ⟨rfl, fun t ht => ?_⟩
      rw [hparse] at ht
      exact absurd ht (by simp)
    next t0 hparse =>
      split at h
      · exact absurd h (by simp)
      · split at h
        · exact absurd h (by simp)
        next hlate =>
          rw [Except.ok.injEq] at h
          subst h
          refine ⟨rfl, fun t ht => ?_⟩
          rw [hparse] at ht
          rw [Option.some_inj] at ht
          subst ht
          simpa using hlate

theorem validarDatas_ok_shape {parcelas : Int} {escolhidas : List Str} {minDate : CDate}
    {L : List Str} (h : validarDatas parcelas escolhidas minDate = .ok L) :
    ∃ vs, mapExcept (checkDataAt escolhidas minDate) (List.range (parcelas - 1).toNat) =
        .ok vs ∧
      L = sortLex (vs ++ [deadlineStr]) ∧ hasAdjDup L = false := by
  unfold validarDatas at h
  simp only [] at h
  split at h
  · exact absurd h (by simp)
  next vs heq =>
    split at h
    · exact absurd h (by simp)
    next hdup =>
      rw [Except.ok.injEq] at h
      subst h
      exact ⟨vs, heq, rfl, by simpa using hdup⟩

theorem validarDatas_sorted {parcelas : Int} {escolhidas : List Str} {minDate : CDate}
    {L : List Str} (h : validarDatas parcelas escolhidas minDate = .ok L)
    (hv : ∀ idx, idx < (parcelas - 1).toNat →
        (parseIsoDate ((escolhidas.getD idx []).take 10)).isSome = true) :
    L.Chain' (fun a b => lexLt a b = true) ∧ L.getLast? = some deadlineStr := by
  obtain ⟨vs, hmap, hLeq, hdup⟩ := validarDatas_ok_shape h
  have hperm : List.Perm L (vs ++ [deadlineStr]) := by
    rw [hLeq]; exact sortLex_perm _
  have hsorted : L.Pairwise (fun a b => lexLe a b = true) := by
    rw [hLeq]; exact pairwise_sortLex _
  have hchainle : L.Chain' (fun a b => lexLe a b = true) := hsorted.chain'
  have hchainne := chain_ne_of_hasAdjDup_false hdup
  have hchain : L.Chain' (fun a b => lexLt a b = true) := chain_lt_of_le_ne hchainle hchainne
  refine ⟨hchain, ?_⟩
  have hdl_mem : deadlineStr ∈ L := hperm.mem_iff.mpr (by simp)
  have hmax : ∀ x ∈ L, lexLe x deadlineStr = true := by
    intro x hx
    have hx2 : x ∈ vs ++ [deadlineStr] := hperm.mem_iff.mp hx
    rcases List.mem_append.mp hx2 with hxvs | hxdl
    · obtain ⟨idx, hidx, hok⟩ := mapExcept_ok_mem hmap x hxvs
      have hidx2 : idx < (parcelas - 1).toNat := List.mem_range.mp hidx
      obtain ⟨hxeq, hbound⟩ := checkDataAt_ok hok
      have hps := hv idx hidx2
      rw [← hxeq] at hps
      obtain ⟨t, ht⟩ := Option.isSome_iff_exists.mp hps
      have hfl : dateLtB deadlineDate t = false := hbound t ht
      have hdlparse : parseIsoDate deadlineStr = some deadlineDate := by decide
      have hlex := lexLt_parse hdlparse ht
      unfold lexLe
      rw [hlex, hfl]
      rfl
    · have hxdl2 : x = deadlineStr := by simpa using hxdl
      rw [hxdl2]
      unfold lexLe
      rw [lexLt_irrefl]
      rfl
  exact getLast_of_chain_max hchain hdl_mem hmax

/-- Counterexample to claim C2: run on 2026-03-30 (a legal ambient "today"
for the auto-mode planner, which reads the clock), a 2-installment plan is
`[2026-04-02, 2026-04-01]` — not strictly ascending (the deadline precedes
the minimum first date `today + 3`). -/
theorem c2_counterexample :
    gerarVencimentosAteDeadline 2 (civil 2026 3 30) (civil 2026 4 1) =
      [civil 2026 4 2, civil 2026 4 1] ∧
    ¬ (gerarVencimentosAteDeadline 2 (civil 2026 3 30) (civil 2026 4 1)).Chain' (· < ·) := by
  have h : gerarVencimentosAteDeadline 2 (civil 2026 3 30) (civil 2026 4 1) =
      [civil 2026 4 2, civil 2026 4 1] := by decide
  refine ⟨h, ?_⟩
  rw [h]
  simp only [List.chain'_cons, List.chain'_singleton, and_true]
  decide

/-- Claim C2 as amended: (auto mode, part_000) when the planning window
`deadline - (today + 3)` is at least `count - 1` days, the due dates are
strictly ascending and the last equals the deadline; (explicit mode,
server.js) when every client-supplied date string parses as a real
calendar date, a successfully validated schedule is strictly ascending in
the route's sort order and its final date is exactly the fixed deadline
2026-04-01. -/
theorem c2_amended :
    (∀ (n : Nat) (hoje deadline : Int), 1 ≤ n → n ≤ 3 →
       (n : Int) - 1 ≤ deadline - (hoje + 3) →
       (gerarVencimentosAteDeadline n hoje deadline).Chain' (· < ·) ∧
       (gerarVencimentosAteDeadline n hoje deadline).getLast? = some deadline) ∧
    (∀ (parcelas : Int) (escolhidas : List Str) (minDate : CDate) (L : List Str),
       validarDatas parcelas escolhidas minDate = .ok L →
       (∀ idx, idx < (parcelas - 1).toNat →
          (parseIsoDate ((escolhidas.getD idx []).take 10)).isSome = true) →
       L.Chain' (fun a b => lexLt a b = true) ∧ L.getLast? = some deadlineStr) := by
  constructor
  · intro n hoje deadline h1 h3 hw
    have hn : n = 1 ∨ n = 2 ∨ n = 3 := by omega
    rcases hn with rfl | rfl | rfl
    · unfold gerarVencimentosAteDeadline
      rw [if_pos (by omega), if_neg (by omega)]
      exact ⟨by simp, by simp⟩
    · unfold gerarVencimentosAteDeadline
      rw [if_neg (by omega)]
      simp only []
      rw [if_neg (by omega)]
      have hlist : (List.range (2 - 1)).map
          (fun (i : Nat) => hoje + 3 + ((i * ((deadline - (hoje + 3)).toNat / (2 - 1)) : Nat) : Int)) =
          [hoje + 3] := by
        rw [show List.range (2 - 1) = [0] from rfl]
        simp
      rw [hlist]
      constructor
      · simp only [List.cons_append, List.nil_append, List.chain'_cons,
          List.chain'_singleton, and_true]
        omega
      · simp
    · unfold gerarVencimentosAteDeadline
      rw [if_neg (by omega)]
      simp only []
      rw [if_neg (by omega)]
      have htd : 2 ≤ (deadline - (hoje + 3)).toNat := by omega
      have hstep1 : 1 ≤ (deadline - (hoje + 3)).toNat / (3 - 1) := by omega
      have hstep2 : (deadline - (hoje + 3)).toNat / (3 - 1) < (deadline - (hoje + 3)).toNat := by
        omega
      have hlist : (List.range (3 - 1)).map
          (fun (i : Nat) => hoje + 3 + ((i * ((deadline - (hoje + 3)).toNat / (3 - 1)) : Nat) : Int)) =
          [hoje + 3, hoje + 3 + (((deadline - (hoje + 3)).toNat / (3 - 1) : Nat) : Int)] := by
        rw [show List.range (3 - 1) = [0, 1] from rfl]
        simp
      rw [hlist]
      constructor
      · simp only [List.cons_append, List.nil_append, List.chain'_cons,
          List.chain'_singleton, and_true]
        refine ⟨by omega, by omega⟩
      · simp
  · exact fun parcelas escolhidas minDate L h hv => validarDatas_sorted h hv

/-- Witness for the amended C2: the auto planner on 2026-01-01 and the
explicit-date validator on two valid client dates. -/
theorem c2_amended_witness :
    ((gerarVencimentosAteDeadline 3 (civil 2026 1 1) (civil 2026 4 1)).Chain' (· < ·) ∧
     (gerarVencimentosAteDeadline 3 (civil 2026 1 1) (civil 2026 4 1)).getLast? =
       some (civil 2026 4 1)) ∧
    (["2026-02-01".toList, "2026-03-01".toList, deadlineStr].Chain'
        (fun a b => lexLt a b = true) ∧
     ["2026-02-01".toList, "2026-03-01".toList, deadlineStr].getLast? = some deadlineStr) :=
  ⟨c2_amended.1 3 (civil 2026 1 1) (civil 2026 4 1) (by omega) (by omega) (by decide),
   c2_amended.2 3 ["2026-02-01".toList, "2026-03-01".toList] ⟨2026, 1, 3⟩
     ["2026-02-01".toList, "2026-03-01".toList, deadlineStr] rfl (by decide)⟩

/-- Counterexample to claim C5: with the window non-positive (run on
2026-03-29, deadline 2026-04-01 = today + 3), the auto planner emits
`[2026-04-01, 2026-04-02, 2026-04-01]` — the two non-final dates are
consecutive days, not all collapsed to `today + minLeadDays` as claimed
(and the code's lead is 3 days, not the claimed 2). -/
theorem c5_counterexample :
    gerarVencimentosAteDeadline 3 (civil 2026 3 29) (civil 2026 4 1) =
      [civil 2026 4 1, civil 2026 4 2, civil 2026 4 1] ∧
    (gerarVencimentosAteDeadline 3 (civil 2026 3 29) (civil 2026 4 1)).getD 1 0 ≠
      (gerarVencimentosAteDeadline 3 (civil 2026 3 29) (civil 2026 4 1)).getD 0 0 := by
  constructor
  · decide
  · decide

/-- Claim C5 as amended: auto mode returns exactly `n` dates; the minimum
lead is 3 days (D+3, not 2); with a positive window the first `n - 1`
dates are `today + 3 + i * floor(window / (n-1))`; for `n ≥ 2` the last
date is always the deadline, and for `n = 1` the single date is the later
of deadline and `today + 3`; with a non-positive window the non-final
dates are `today + 3 + i` (consecutive days, not all equal); concretely
for count 3 on 2026-01-01 the plan is [2026-01-04, 2026-02-16,
2026-04-01]: interior dates strictly between 2026-01-03 and 2026-04-01,
evenly spaced with step floor(87/2) = 43. -/
theorem c5_amended :
    (∀ (n : Nat) (hoje deadline : Int), 1 ≤ n → n ≤ 3 →
      (gerarVencimentosAteDeadline n hoje deadline).length = n ∧
      (n = 1 → gerarVencimentosAteDeadline n hoje deadline =
        [if deadline < hoje + 3 then hoje + 3 else deadline]) ∧
      (2 ≤ n → (gerarVencimentosAteDeadline n hoje deadline).getLast? = some deadline) ∧
      (2 ≤ n → 1 ≤ deadline - (hoje + 3) → ∀ i : Nat, i < n - 1 →
        (gerarVencimentosAteDeadline n hoje deadline).getD i 0 =
          hoje + 3 + ((i * ((deadline - (hoje + 3)).toNat / (n - 1)) : Nat) : Int)) ∧
      (2 ≤ n → deadline - (hoje + 3) ≤ 0 → ∀ i : Nat, i < n - 1 →
        (gerarVencimentosAteDeadline n hoje deadline).getD i 0 = hoje + 3 + (i : Int))) ∧
    (gerarVencimentosAteDeadline 3 (civil 2026 1 1) (civil 2026 4 1) =
        [civil 2026 1 4, civil 2026 2 16, civil 2026 4 1] ∧
      civil 2026 1 3 < civil 2026 1 4 ∧ civil 2026 2 16 < civil 2026 4 1 ∧
      civil 2026 2 16 - civil 2026 1 4 = (((civil 2026 4 1 - civil 2026 1 4).toNat / 2 : Nat) : Int) ∧
      ((civil 2026 4 1 - civil 2026 1 4).toNat / 2 : Nat) = 43) := by
  constructor
  · intro n hoje deadline h1 h3
    have hn : n = 1 ∨ n = 2 ∨ n = 3 := by omega
    rcases hn with rfl | rfl | rfl
    · refine ⟨?_, ?_, ?_, ?_, ?_⟩
      · unfold gerarVencimentosAteDeadline
        rw [if_pos (by omega)]
        rfl
      · intro _
        unfold gerarVencimentosAteDeadline
        rw [if_pos (by omega)]
      · intro hcon; omega
      · intro hcon; omega
      · intro hcon; omega
    · by_cases hw : (deadline - (hoje + 3)).toNat = 0
      · unfold gerarVencimentosAteDeadline
        rw [if_neg (by omega)]
        simp only []
        rw [if_pos hw, show List.range (2 - 1) = [0] from rfl]
        refine ⟨by simp, ?_, ?_, ?_, ?_⟩
        · intro hcon; omega
        · intro _; simp
        · intro _ hpos
          exact absurd hw (by omega)
        · intro _ _ i hi
          have hi0 : i = 0 := by omega
          subst hi0
          simp
      · unfold gerarVencimentosAteDeadline
        rw [if_neg (by omega)]
        simp only []
        rw [if_neg hw, show List.range (2 - 1) = [0] from rfl]
        refine ⟨by simp, ?_, ?_, ?_, ?_⟩
        · intro hcon; omega
        · intro _; simp
        · intro _ hpos i hi
          have hi0 : i = 0 := by omega
          subst hi0
          simp
        · intro _ hnp
          exact absurd (show (deadline - (hoje + 3)).toNat = 0 by omega) hw
    · by_cases hw : (deadline - (hoje + 3)).toNat = 0
      · unfold gerarVencimentosAteDeadline
        rw [if_neg (by omega)]
        simp only []
        rw [if_pos hw, show List.range (3 - 1) = [0, 1] from rfl]
        refine ⟨by simp, ?_, ?_, ?_, ?_⟩
        · intro hcon; omega
        · intro _; simp
        · intro _ hpos
          exact absurd hw (by omega)
        · intro _ _ i hi
          have hi01 : i = 0 ∨ i = 1 := by omega
          rcases hi01 with rfl | rfl <;> simp
      · unfold gerarVencimentosAteDeadline
        rw [if_neg (by omega)]
        simp only []
        rw [if_neg hw, show List.range (3 - 1) = [0, 1] from rfl]
        refine ⟨by simp, ?_, ?_, ?_, ?_⟩
        · intro hcon; omega
        · intro _; simp
        · intro _ hpos i hi
          have hi01 : i = 0 ∨ i = 1 := by omega
          rcases hi01 with rfl | rfl <;> simp
        · intro _ hnp
          exact absurd (show (deadline - (hoje + 3)).toNat = 0 by omega) hw
  · refine ⟨by decide, by decide, by decide, by decide, by decide⟩

/-- Witness for the amended C5 at count 2, today 2026-01-01. -/
theorem c5_amended_witness :
    (gerarVencimentosAteDeadline 2 (civil 2026 1 1) (civil 2026 4 1)).length = 2 ∧
    (gerarVencimentosAteDeadline 2 (civil 2026 1 1) (civil 2026 4 1)).getLast? =
      some (civil 2026 4 1) ∧
    (gerarVencimentosAteDeadline 2 (civil 2026 1 1) (civil 2026 4 1)).getD 0 0 =
      civil 2026 1 1 + 3 +
        ((0 * ((civil 2026 4 1 - (civil 2026 1 1 + 3)).toNat / (2 - 1)) : Nat) : Int) :=
  ⟨(c5_amended.1 2 (civil 2026 1 1) (civil 2026 4 1) (by omega) (by omega)).1,
   (c5_amended.1 2 (civil 2026 1 1) (civil 2026 4 1) (by omega) (by omega)).2.2.1 (by omega),
   (c5_amended.1 2 (civil 2026 1 1) (civil 2026 4 1) (by omega) (by omega)).2.2.2.1
     (by omega) (by decide) 0 (by omega)⟩

theorem boletosServer_datasErr {st : Store} {iid : Nat} {preq : Option Int}
    {escolhidas : List Str} {minDate : CDate} {gw : Nat → Except Str PayResult} {e : VErr}
    (hins : st.inscritos.any (fun i => i.id == iid) = true)
    (hval : validarDatas (numOr3 preq) escolhidas minDate = .error e) :
    boletosServer st iid preq escolhidas minDate (.ok ()) gw = (st, .datasErr e) := by
  unfold boletosServer
  rw [if_neg (by simp [hins])]
  simp only []
  rw [hval]

theorem chargeLoop_fail (iid : Nat) (vc : Int) (vencs : List Str)
    (gw : Nat → Except Str PayResult) (payf : Nat → PayResult) (p : Nat) (msg : Str)
    (hfail : gw p = .error msg) :
    ∀ (k a : Nat) (st : Store) (acc : List Item), a ≤ p → p < a + k →
      (∀ q, a ≤ q → q < p → gw q = .ok (payf q)) →
      chargeLoop iid vc vencs gw (List.range' a k) st acc =
        ({ st with parcelas := st.parcelas ++
            (List.range' a (p - a)).map (fun q => mkParcela iid vc vencs q (payf q)) },
         .chargeErr p msg) := by
  intro k
  induction k with
  | zero =>
    intro a st acc h1 h2 _
    omega
  | succ k ih =>
    intro a st acc h1 h2 hok
    rw [List.range'_succ]
    by_cases hap : a = p
    · subst hap
      unfold chargeLoop
      rw [hfail]
      simp
    · have hlt : a < p := by omega
      unfold chargeLoop
      rw [hok a (by omega) hlt]
      simp only []
      rw [ih (a + 1) _ _ (by omega) (by omega) (fun q hq1 hq2 => hok q (by omega) hq2)]
      refine Prod.ext ?_ rfl
      simp only []
      congr 1
      rw [List.append_assoc]
      congr 1
      rw [show p - a = (p - (a + 1)) + 1 by omega, List.range'_succ]
      simp

/-- Counterexample to claim C6: with installment 1 accepted and
installment 2 rejected by the gateway, the route answers
`{ok:false, etapa:'asaas-payments', parcela:2, erro}` — the failing index
is reported, but the response carries **no** results for the
already-created installment (which nonetheless stays persisted). -/
theorem c6_counterexample :
    (boletosServer stB 1 (some 2) ["2026-02-01".toList] ⟨2026, 1, 3⟩ (.ok ()) gwFail2).2 =
      .chargeErr 2 "gateway down".toList ∧
    respResults
      (boletosServer stB 1 (some 2) ["2026-02-01".toList] ⟨2026, 1, 3⟩ (.ok ()) gwFail2).2 =
      [] ∧
    (boletosServer stB 1 (some 2) ["2026-02-01".toList] ⟨2026, 1, 3⟩
        (.ok ()) gwFail2).1.parcelas.length = 1 := by
  refine ⟨by decide, by decide, by decide⟩

/-- Claim C6 as amended: schedule-validation failures return the date
error with the store untouched (no installment created); a gateway
failure at index `p` after successes at `1..p-1` leaves exactly those
`p - 1` installments persisted (no rollback) and reports index `p` with
the gateway message — but the response body carries no results for the
already-created installments (`respResults` of an error response is
empty), unlike what the claim states. -/
theorem c6_amended :
    (∀ (st : Store) (iid : Nat) (preq : Option Int) (escolhidas : List Str)
       (minDate : CDate) (gw : Nat → Except Str PayResult) (e : VErr),
       st.inscritos.any (fun i => i.id == iid) = true →
       validarDatas (numOr3 preq) escolhidas minDate = .error e →
       boletosServer st iid preq escolhidas minDate (.ok ()) gw = (st, .datasErr e)) ∧
    (∀ (st : Store) (iid : Nat) (preq : Option Int) (escolhidas : List Str)
       (minDate : CDate) (gw : Nat → Except Str PayResult) (vencs : List Str)
       (payf : Nat → PayResult) (p : Nat) (msg : Str),
       st.inscritos.any (fun i => i.id == iid) = true →
       validarDatas (numOr3 preq) escolhidas minDate = .ok vencs →
       1 ≤ p → (p : Int) ≤ numOr3 preq →
       (∀ q, 1 ≤ q → q < p → gw q = .ok (payf q)) →
       gw p = .error msg →
       boletosServer st iid preq escolhidas minDate (.ok ()) gw =
         ({ st with parcelas := st.parcelas ++
             ((List.range' 1 (p - 1)).map
               (fun q => mkParcela iid (valorCentsServer (numOr3 preq)) vencs q (payf q))) },
          .chargeErr p msg) ∧
       respResults (.chargeErr p msg : Resp) = []) := by
  constructor
  · intro st iid preq escolhidas minDate gw e hins hval
    exact boletosServer_datasErr hins hval
  · intro st iid preq escolhidas minDate gw vencs payf p msg hins hval hp1 hple hok hfail
    refine ⟨?_, rfl⟩
    unfold boletosServer
    rw [if_neg (by simp [hins])]
    simp only []
    rw [hval]
    have hlen : p < 1 + (numOr3 preq).toNat := by omega
    have := chargeLoop_fail iid (valorCentsServer (numOr3 preq)) vencs gw payf p msg hfail
      (numOr3 preq).toNat 1 st [] hp1 hlen (fun q hq1 hq2 => hok q hq1 hq2)
    simpa using this

/-- Witness for the amended C6: both halves applied at `stB`. -/
theorem c6_amended_witness :
    boletosServer stB 1 (some 2) ["boom".toList] ⟨2026, 1, 3⟩ (.ok ()) gwFail2 =
      (stB, .datasErr (.invalida 1)) ∧
    boletosServer stB 1 (some 2) ["2026-02-01".toList] ⟨2026, 1, 3⟩ (.ok ()) gwFail2 =
      ({ stB with parcelas := stB.parcelas ++
          ((List.range' 1 (2 - 1)).map
            (fun q => mkParcela 1 (valorCentsServer (numOr3 (some 2)))
              ["2026-02-01".toList, deadlineStr] q (payfW q))) },
       .chargeErr 2 "gateway down".toList) :=
  ⟨c6_amended.1 stB 1 (some 2) ["boom".toList] ⟨2026, 1, 3⟩ gwFail2 (.invalida 1)
     (by decide) rfl,
   (c6_amended.2 stB 1 (some 2) ["2026-02-01".toList] ⟨2026, 1, 3⟩ gwFail2
     ["2026-02-01".toList, deadlineStr] payfW 2 "gateway down".toList
     (by decide) rfl (by omega) (by decide)
     (fun q h1 h2 => by
       have hq : q = 1 := by omega
       subst hq
       rfl)
     rfl).1⟩

theorem clampQtd_bounds (x : Option Int) : 1 ≤ clampQtd x ∧ clampQtd x ≤ 3 := by
  match x with
  | none => exact ⟨by norm_num [clampQtd], by norm_num [clampQtd]⟩
  | some v =>
    simp only [clampQtd]
    by_cases hv : v = 0
    · rw [if_pos hv]
      omega
    · rw [if_neg hv]
      constructor
      · exact le_min (by omega) (le_max_left 1 v)
      · exact min_le_left 3 _

/-- Counterexample to claim C9: the server.js boleto route does not clamp
the requested count — a request with `parcelas = 4` and three valid
distinct dates succeeds and creates four installments. -/
theorem c9_counterexample :
    (boletosServer stB 1 (some 4) escolhidas4 ⟨2026, 1, 3⟩
        (.ok ()) gwOk).1.parcelas.length = 4 ∧
    ¬ (4 : Int) ≤ 3 := by
  refine ⟨by decide, by decide⟩

/-- Claim C9 as amended: only the part_000 boleto route clamps the
requested installment count — there `Math.min(3, Math.max(1, count || 3))`
always lies in [1, 3] for every integer (or absent) client value, and the
route inserts exactly that many installments; the server.js route uses the
client value unclamped (see the counterexample creating four). -/
theorem c9_amended :
    (∀ x : Option Int, 1 ≤ clampQtd x ∧ clampQtd x ≤ 3) ∧
    (∀ (st : Store) (iid : Nat) (x : Option Int) (gw : Nat → PayResult),
       st.inscritos.any (fun i => i.id == iid) = true →
       (boletosPart000 st iid x gw).1.parcelas.length =
           st.parcelas.length + (clampQtd x).toNat ∧
         1 ≤ (clampQtd x).toNat ∧ (clampQtd x).toNat ≤ 3) := by
  constructor
  · exact clampQtd_bounds
  · intro st iid x gw hins
    have hb := clampQtd_bounds x
    refine ⟨?_, by omega, by omega⟩
    unfold boletosPart000
    rw [if_neg (by simp [hins])]
    simp

/-- Witness for the amended C9: a request for 7 installments on the
part_000 route creates exactly 3. -/
theorem c9_amended_witness :
    (1 ≤ clampQtd (some 7) ∧ clampQtd (some 7) ≤ 3) ∧
    (boletosPart000 stB 1 (some 7) gwP).1.parcelas.length =
      stB.parcelas.length + (clampQtd (some 7)).toNat :=
  ⟨c9_amended.1 (some 7),
   (c9_amended.2 stB 1 (some 7) gwP (by decide)).1⟩
